import Mathlib

/-!
Verification development for the fileconcat scanning core
(src/fileconcat/matchers.py, src/fileconcat/scan.py, src/fileconcat/config.py).

The Python source is shallowly embedded:
  * strings stay strings; a file's text is the list of lines that Python's
    line iteration would yield (each line normally keeps its newline, but
    nothing below depends on that);
  * a file read that raises is modelled by the read result `none`, a clean
    read by `some lines`;
  * Python's `re.search` is an external library call; it is abstracted as an
    explicit parameter `rs : RegexFn` (pattern, text ↦ found), threaded
    through every definition exactly where the source calls `.search`;
  * the `tui` progress/warning printing and wall-clock timing are cosmetic
    collaborators with no influence on results and are not modelled
    (`ScanStats.scan_elapsed` is dropped for the same reason);
  * a pattern field that Python would treat as falsy (`None` or the empty
    string) is modelled by the empty string, matching the source's
    truthiness tests (`if not pattern`, `if self.content_pattern`).
-/

namespace Fileconcat

/-- Python substring test: does the second list occur at the head of the first? -/
def startsWithList : List Char → List Char → Bool
  | _, [] => true
  | [], _ :: _ => false
  | c :: cs, p :: ps => c == p && startsWithList cs ps

/-- Helper for `strContains`: does the pattern occur anywhere in the text? -/
def containsAux (pat : List Char) : List Char → Bool
  | [] => pat.isEmpty
  | c :: cs => startsWithList (c :: cs) pat || containsAux pat cs

/-- Python's `pat in text` for strings: contiguous substring containment
(the empty pattern is contained in every string, as in Python). -/
def strContains (text pat : String) : Bool :=
  containsAux pat.toList text.toList

/-- Python's `str.lower()` as used on extensions: character-wise lowering. -/
def lowerStr (s : String) : String :=
  String.mk (s.toList.map Char.toLower)

/-- `os.path.basename` for a forward-slash path: the part after the last slash. -/
def basenameStr (p : String) : String :=
  String.mk ((p.toList.reverse.takeWhile (fun c => c ≠ '/')).reverse)

/-- `os.path.join` for forward-slash paths as the source builds them. -/
def joinPath (base n : String) : String :=
  base ++ "/" ++ n

/-- `os.path.relpath(p, base)` modelled for the paths this pipeline builds,
which are always `base ++ "/" ++ rel`: drop the base and the slash.
(The posix-separator `.replace` of the source is the identity here because
all modelled paths already use forward slashes.) -/
def relpathStr (p base : String) : String :=
  p.drop (base.length + 1)

/-- The extension part of `os.path.splitext` on a base name: split at the
last dot, but only when some character before that dot is not itself a dot
(so ".bashrc" has no extension), else empty. -/
def splitextExt (name : String) : String :=
  let cs := name.toList
  match cs.reverse.findIdx? (fun c => c = '.') with
  | none => ""
  | some r =>
    let d := cs.length - 1 - r
    if (cs.take d).any (fun c => c ≠ '.') then String.mk (cs.drop d) else ""

/-- config.py: `MatchMode = Literal["exact", "substring", "regex"]`. -/
inductive MatchMode where
  | exact
  | substring
  | regex
deriving DecidableEq

/-- Abstraction of the compiled-regex search Python's `re` performs:
given the pattern source and a text, report whether a match is found. -/
def RegexFn : Type := String → String → Bool

/-- config.py `DEFAULT_EXCLUDED_DIR_NAMES`: directory names pruned during a
recursive traversal. -/
def DEFAULT_EXCLUDED_DIR_NAMES : List String :=
  [".git", ".hg", ".svn", ".idea", ".vscode", "__pycache__",
   "node_modules", "dist", "build", "out", "target",
   ".gradle", ".mvn", ".venv", "venv"]

/-- config.py `DEFAULT_BINARY_EXTS`: extensions short-circuiting content scans. -/
def DEFAULT_BINARY_EXTS : List String :=
  [".jpg", ".jpeg", ".png", ".gif", ".bmp", ".ico", ".pdf",
   ".zip", ".tar", ".gz", ".bz2", ".7z", ".jar",
   ".exe", ".dll", ".so", ".dylib", ".class", ".bin",
   ".woff", ".woff2", ".ttf", ".otf"]

/-- matchers.py `make_path_matchers`: the include closure.
`include(rel_path, name)`: vacuously true without a pattern; regex mode
searches only the relative path; substring mode tests containment in the
relative path or the name; exact mode tests equality with either. -/
def includePath (rs : RegexFn) (pattern : String) (mm : MatchMode)
    (rel_path name : String) : Bool :=
  if pattern = "" then true
  else match mm with
    | .regex => rs pattern rel_path
    | .substring => strContains rel_path pattern || strContains name pattern
    | .exact => rel_path == pattern || name == pattern

/-- matchers.py `make_path_matchers`: the exclude closure, vacuously false
without an exclude pattern, else the same three modes. -/
def excludePath (rs : RegexFn) (exclude_pattern : String) (mm : MatchMode)
    (rel_path name : String) : Bool :=
  if exclude_pattern = "" then false
  else match mm with
    | .regex => rs exclude_pattern rel_path
    | .substring => strContains rel_path exclude_pattern || strContains name exclude_pattern
    | .exact => rel_path == exclude_pattern || name == exclude_pattern

/-- matchers.py `make_path_matchers`: returns the two closures. -/
def make_path_matchers (rs : RegexFn) (pattern exclude_pattern : String)
    (mm : MatchMode) : (String → String → Bool) × (String → String → Bool) :=
  (includePath rs pattern mm, excludePath rs exclude_pattern mm)

/-- matchers.py `ContentMatcher` after `__init__` (the compiled regexes are
represented by their pattern strings, searched through the `RegexFn`
parameter; `__init__` has already clamped `batch_size`). -/
structure ContentMatcher where
  content_pattern : String
  content_exclude_pattern : String
  match_mode : MatchMode
  batch_size : Nat
  binary_exts : List String

/-- matchers.py `make_content_matcher` / `ContentMatcher.__init__`:
`self.batch_size = max(1, batch_size)` (the configured value is an
arbitrary Python int, hence `Int` here). -/
def make_content_matcher (content_pattern content_exclude_pattern : String)
    (mm : MatchMode) (batch_size : Int) (binary_exts : List String) :
    ContentMatcher :=
  ⟨content_pattern, content_exclude_pattern, mm, (max 1 batch_size).toNat, binary_exts⟩

/-- matchers.py `ContentMatcher._enabled = bool(content_pattern or content_exclude_pattern)`. -/
def ContentMatcher.enabled (cm : ContentMatcher) : Bool :=
  cm.content_pattern ≠ "" || cm.content_exclude_pattern ≠ ""

/-- matchers.py: `ext = os.path.splitext(name)[1].lower(); ext in self.binary_exts`. -/
def ContentMatcher.isBinaryName (cm : ContentMatcher) (name : String) : Bool :=
  cm.binary_exts.contains (lowerStr (splitextExt name))

/-- The per-file mutable flags of `ContentMatcher.check`
(`content_matches`, `content_excluded`). -/
structure BState where
  content_matches : Bool
  content_excluded : Bool
deriving DecidableEq

/-- The mode dispatch inside `process_batch`: regex mode searches the batch
text, the other modes test substring containment of the raw pattern. -/
def contentMatchTest (rs : RegexFn) (mm : MatchMode) (pat text : String) : Bool :=
  if mm = .regex then rs pat text else strContains text pat

/-- matchers.py `process_batch`: skip empty text; set each still-pending
flag whose pattern matches the batch text; return the updated flags and the
early-stop signal (stop once excluded, or once the include pattern matched
with no exclude pattern configured). -/
def processBatch (rs : RegexFn) (cm : ContentMatcher) (st : BState)
    (batch_text : String) : BState × Bool :=
  if batch_text = "" then (st, false)
  else
    let st1 :=
      if cm.content_pattern ≠ "" ∧ st.content_matches = false ∧
          contentMatchTest rs cm.match_mode cm.content_pattern batch_text = true
      then { st with content_matches := true } else st
    let st2 :=
      if cm.content_exclude_pattern ≠ "" ∧ st1.content_excluded = false ∧
          contentMatchTest rs cm.match_mode cm.content_exclude_pattern batch_text = true
      then { st1 with content_excluded := true } else st1
    if st2.content_excluded = true then (st2, true)
    else if cm.content_pattern ≠ "" ∧ st2.content_matches = true ∧
        cm.content_exclude_pattern = "" then (st2, true)
    else (st2, false)

/-- The early-stop condition of `check`, as re-tested before the tail flush:
`content_excluded or (content_pattern and content_matches and not content_exclude_pattern)`. -/
def stopCond (cm : ContentMatcher) (st : BState) : Bool :=
  st.content_excluded ||
    (decide (cm.content_pattern ≠ "") && st.content_matches &&
     decide (cm.content_exclude_pattern = ""))

/-- matchers.py `check`, reading loop: accumulate lines into a batch; when
the batch reaches `batch_size` lines, join and process it, breaking on the
stop signal; after the last line, flush a non-empty leftover batch unless a
final decision was already reached. -/
def runLines (rs : RegexFn) (cm : ContentMatcher) :
    List String → List String → BState → BState
  | [], batch, st =>
    if batch ≠ [] ∧ stopCond cm st = false then
      (processBatch rs cm st (String.join batch)).1
    else st
  | l :: rest, batch, st =>
    let batch1 := batch ++ [l]
    if cm.batch_size ≤ batch1.length then
      let r := processBatch rs cm st (String.join batch1)
      if r.2 then r.1 else runLines rs cm rest [] r.1
    else runLines rs cm rest batch1 st

/-- matchers.py `check`, final decision block: an unmatched configured
include pattern rejects; then a matched configured exclude pattern excludes;
otherwise the file passes. -/
def finalCheck (cm : ContentMatcher) (st : BState) (had_warning : Bool) :
    Bool × Bool × Bool :=
  if cm.content_pattern ≠ "" ∧ st.content_matches = false then
    (false, false, had_warning)
  else if cm.content_exclude_pattern ≠ "" ∧ st.content_excluded = true then
    (false, true, had_warning)
  else (true, false, had_warning)

/-- matchers.py `ContentMatcher.check(file_path, name)`, returning
`(include_ok, excluded, had_warning)`. The file's readable content (or its
read failure) is passed as `readResult`; a binary-extension name never
consults it, mirroring the source's skipped `open`. -/
def ContentMatcher.check (cm : ContentMatcher) (rs : RegexFn) (name : String)
    (readResult : Option (List String)) : Bool × Bool × Bool :=
  if cm.enabled = false then (true, false, false)
  else if cm.content_pattern ≠ "" ∧ cm.isBinaryName name = true then
    (false, false, false)
  else if cm.isBinaryName name = true then
    finalCheck cm ⟨false, false⟩ false
  else
    match readResult with
    | none => (false, false, true)
    | some lines => finalCheck cm (runLines rs cm lines [] ⟨false, false⟩) false

/-- A modelled filesystem tree entry: a regular file carries its readable
line content (`none` when reading it would raise), a directory its entries
in listing order. -/
inductive FSTree where
  | file (name : String) (data : Option (List String))
  | dir (name : String) (children : List FSTree)

/-- The regular files directly inside a directory, in listing order, with
their absolute paths (`os.scandir` entries satisfying `is_file`, and the
`filenames` of one `os.walk` triple). -/
def filesAt (p : String) (ts : List FSTree) : List (String × Option (List String)) :=
  ts.filterMap fun t =>
    match t with
    | .file n d => some (joinPath p n, d)
    | .dir _ _ => none

/-- scan.py `iter_files`, recursive case, below the root: `os.walk` yields a
directory's files before descending into its subdirectories in order, and a
subdirectory whose name is in `DEFAULT_EXCLUDED_DIR_NAMES` is pruned before
descent (removed from `dirnames` on the fly). -/
def walkChildren (p : String) : List FSTree → List (String × Option (List String))
  | [] => []
  | FSTree.file _ _ :: ts => walkChildren p ts
  | FSTree.dir n cs :: ts =>
    (if n ∈ DEFAULT_EXCLUDED_DIR_NAMES then []
     else filesAt (joinPath p n) cs ++ walkChildren (joinPath p n) cs)
    ++ walkChildren p ts

/-- scan.py `iter_files(root, recursive)`: recursive mode walks the whole
tree with pruning (the root itself is never name-checked); non-recursive
mode lists only the root's direct regular files. -/
def iter_files (root : String) (recursive : Bool) (tree : List FSTree) :
    List (String × Option (List String)) :=
  if recursive then filesAt root tree ++ walkChildren root tree
  else filesAt root tree

/-- config.py `AppConfig` (paths as strings; an absent optional pattern is
the empty string, matching the source's truthiness tests; `batch_size` is a
raw Python int, clamped later by `ContentMatcher.__init__`). -/
structure AppConfig where
  input_dir : String
  output_file : String
  no_body : Bool
  no_headers : Bool
  pattern : String
  match_mode : MatchMode
  exclude_pattern : String
  recursive : Bool
  content_pattern : String
  content_exclude_pattern : String
  batch_size : Int

/-- config.py `ScanStats` (`scan_elapsed` is wall-clock time, not modelled). -/
structure ScanStats where
  scanned : Nat
  matched : Nat
deriving DecidableEq

/-- The `ContentMatcher` that scan.py builds from the configuration
(`make_content_matcher(..., DEFAULT_BINARY_EXTS)`). -/
def cfgMatcher (cfg : AppConfig) : ContentMatcher :=
  make_content_matcher cfg.content_pattern cfg.content_exclude_pattern
    cfg.match_mode cfg.batch_size DEFAULT_BINARY_EXTS

/-- scan.py `scan_files`, per-candidate loop over the traversal output:
count every candidate as scanned; silently skip the output file; apply the
path include then exclude filters; apply the content check; keep survivors
as `(path, rel_path)` in traversal order. Returns the kept list and the
scanned count. -/
def scanLoop (rs : RegexFn) (cfg : AppConfig) (cm : ContentMatcher) :
    List (String × Option (List String)) → List (String × String) × Nat
  | [] => ([], 0)
  | (p, data) :: rest =>
    let tail := scanLoop rs cfg cm rest
    let keep : List (String × String) :=
      if p = cfg.output_file then []
      else
        let rel := relpathStr p cfg.input_dir
        let name := basenameStr p
        if cfg.pattern ≠ "" ∧
            includePath rs cfg.pattern cfg.match_mode rel name = false then []
        else if cfg.exclude_pattern ≠ "" ∧
            excludePath rs cfg.exclude_pattern cfg.match_mode rel name = true then []
        else
          let r := cm.check rs name data
          if r.1 = false ∨ r.2.1 = true then [] else [(p, rel)]
    (keep ++ tail.1, tail.2 + 1)

/-- scan.py `scan_files(cfg)`: drive `iter_files` over the modelled tree,
filter each candidate, and return the kept `(path, rel_path)` list plus the
statistics (`matched = len(filtered)`). -/
def scan_files (rs : RegexFn) (cfg : AppConfig) (tree : List FSTree) :
    List (String × String) × ScanStats :=
  let cands := iter_files cfg.input_dir cfg.recursive tree
  let r := scanLoop rs cfg (cfgMatcher cfg) cands
  (r.1, ⟨r.2, r.1.length⟩)

/-- The line groups that `check`'s reading loop divides a file into: chunks
of `bs` lines, the leftover lines forming a final shorter group. -/
def chunkGroups (bs : Nat) : List String → List String → List (List String)
  | acc, [] => if acc = [] then [] else [acc]
  | acc, l :: ls =>
    let acc1 := acc ++ [l]
    if bs ≤ acc1.length then acc1 :: chunkGroups bs [] ls
    else chunkGroups bs acc1 ls

/-- The batch texts of a file: each line group joined, as by
`"".join(batch)`. -/
def chunkBatches (bs : Nat) (acc ls : List String) : List String :=
  (chunkGroups bs acc ls).map String.join

/-- Reference form of the reading loop: process the batch texts one by one,
stopping when `process_batch` signals the early stop. -/
def foldBatches (rs : RegexFn) (cm : ContentMatcher) :
    List String → BState → BState
  | [], st => st
  | b :: bs, st =>
    let r := processBatch rs cm st b
    if r.2 then r.1 else foldBatches rs cm bs r.1

/-- A batch text on which the configured content-include pattern fires
(`process_batch` skips empty text, hence the non-emptiness conjunct). -/
def includeHit (rs : RegexFn) (cm : ContentMatcher) (b : String) : Bool :=
  !(b == "") && contentMatchTest rs cm.match_mode cm.content_pattern b

/-- A batch text on which the configured content-exclude pattern fires. -/
def excludeHit (rs : RegexFn) (cm : ContentMatcher) (b : String) : Bool :=
  !(b == "") && contentMatchTest rs cm.match_mode cm.content_exclude_pattern b

/-- The matcher flags `check` has accumulated once a clean full read ends:
untouched for a binary-extension name (the file is never opened), otherwise
the reading loop's result. -/
def checkState (rs : RegexFn) (cm : ContentMatcher) (name : String)
    (lines : List String) : BState :=
  if cm.isBinaryName name = true then ⟨false, false⟩
  else runLines rs cm lines [] ⟨false, false⟩

/-- The spec's final decision rule, written from its words: if a
content-include pattern is configured and was never matched, reject; if a
content-exclude pattern is configured and matched, reject as excluded;
otherwise accept. Returns `(include_ok, excluded)`. -/
def specFinalRule (cm : ContentMatcher) (includeMatched excludeMatched : Bool) :
    Bool × Bool :=
  if cm.content_pattern ≠ "" ∧ includeMatched = false then (false, false)
  else if cm.content_exclude_pattern ≠ "" ∧ excludeMatched = true then (false, true)
  else (true, false)

/-- A concrete stand-in for the abstract regex search, used to instantiate
theorems at non-regex match modes (where it is never consulted). -/
def rsNone : RegexFn := fun _ _ => false

/-- A concrete regex search whose language is plain substring containment,
used to instantiate regex-mode theorems. -/
def rsSub : RegexFn := fun pat text => strContains text pat

/-! ### Lemmas about the batched reading loop -/

theorem processBatch_snd_eq_stopCond (rs : RegexFn) (cm : ContentMatcher)
    (st : BState) (b : String) (h : stopCond cm st = false) :
    (processBatch rs cm st b).2 = stopCond cm (processBatch rs cm st b).1 := by
  unfold processBatch
  split
  · exact h.symm
  · simp only [stopCond] at *
    split_ifs with h1 h2 h3 <;> simp_all

theorem runLines_eq_foldBatches (rs : RegexFn) (cm : ContentMatcher) :
    ∀ (ls acc : List String) (st : BState), stopCond cm st = false →
      runLines rs cm ls acc st =
        foldBatches rs cm (chunkBatches cm.batch_size acc ls) st := by
  intro ls
  induction ls with
  | nil =>
    intro acc st h
    by_cases hacc : acc = [] <;>
      simp [runLines, chunkBatches, chunkGroups, foldBatches, h, hacc, ite_self]
  | cons l rest ih =>
    intro acc st h
    by_cases hlen : cm.batch_size ≤ acc.length + 1
    · cases hr : (processBatch rs cm st (String.join (acc ++ [l]))).2 with
      | true =>
        simp [runLines, chunkBatches, chunkGroups, foldBatches, hlen, hr]
      | false =>
        have hst : stopCond cm (processBatch rs cm st (String.join (acc ++ [l]))).1 = false := by
          rw [← processBatch_snd_eq_stopCond rs cm st _ h]; exact hr
        simp [runLines, chunkBatches, chunkGroups, foldBatches, hlen, hr, ih [] _ hst]
    · simp [runLines, chunkBatches, chunkGroups, foldBatches, hlen, ih (acc ++ [l]) st h]

theorem processBatch_matches_mono (rs : RegexFn) (cm : ContentMatcher)
    (st : BState) (b : String) (h : st.content_matches = true) :
    (processBatch rs cm st b).1.content_matches = true := by
  simp only [processBatch]
  split_ifs <;> simp_all

theorem foldBatches_matches_mono (rs : RegexFn) (cm : ContentMatcher) :
    ∀ (bs : List String) (st : BState), st.content_matches = true →
      (foldBatches rs cm bs st).content_matches = true := by
  intro bs
  induction bs with
  | nil => intro st h; simpa [foldBatches] using h
  | cons b bs ih =>
    intro st h
    have hm := processBatch_matches_mono rs cm st b h
    unfold foldBatches
    cases hr : (processBatch rs cm st b).2 <;> simp [hr, hm, ih _ hm]

theorem processBatch_matches_of_hit (rs : RegexFn) (cm : ContentMatcher)
    (st : BState) (b : String) (hp : cm.content_pattern ≠ "")
    (hb : includeHit rs cm b = true) :
    (processBatch rs cm st b).1.content_matches = true := by
  simp only [includeHit, Bool.and_eq_true, bne_iff_ne, Bool.not_eq_true,
    beq_iff_eq] at hb
  simp only [processBatch]
  split_ifs <;> simp_all

theorem processBatch_excluded_char (rs : RegexFn) (cm : ContentMatcher)
    (st : BState) (b : String) (he : cm.content_exclude_pattern ≠ "") :
    (processBatch rs cm st b).1.content_excluded =
      (st.content_excluded || excludeHit rs cm b) := by
  simp only [processBatch, excludeHit]
  split_ifs <;> simp_all

theorem processBatch_snd_of_excl (rs : RegexFn) (cm : ContentMatcher)
    (st : BState) (b : String) (he : cm.content_exclude_pattern ≠ "")
    (h : st.content_excluded = false) :
    (processBatch rs cm st b).2 = (processBatch rs cm st b).1.content_excluded := by
  simp only [processBatch]
  split_ifs <;> simp_all

theorem foldBatches_excluded_char (rs : RegexFn) (cm : ContentMatcher)
    (he : cm.content_exclude_pattern ≠ "") :
    ∀ (bs : List String) (st : BState), st.content_excluded = false →
      (foldBatches rs cm bs st).content_excluded = bs.any (excludeHit rs cm) := by
  intro bs
  induction bs with
  | nil => intro st h; simpa [foldBatches] using h
  | cons b bs ih =>
    intro st h
    have hx := processBatch_excluded_char rs cm st b he
    rw [h] at hx; simp only [Bool.false_or] at hx
    have hs := processBatch_snd_of_excl rs cm st b he h
    unfold foldBatches
    cases hhit : excludeHit rs cm b with
    | true => rw [hhit] at hx; simp [hs, hx, hhit]
    | false =>
      rw [hhit] at hx
      simp [hs, hx, hhit, ih _ hx]

theorem foldBatches_c2 (rs : RegexFn) (cm : ContentMatcher)
    (hp : cm.content_pattern ≠ "") (he : cm.content_exclude_pattern ≠ "")
    (bi : String) (post : List String) (hinc : includeHit rs cm bi = true)
    (hexc : (bi :: post).any (excludeHit rs cm) = true) :
    ∀ (pre : List String) (st : BState),
      (∀ b ∈ pre, excludeHit rs cm b = false) → st.content_excluded = false →
      (foldBatches rs cm (pre ++ bi :: post) st).content_matches = true ∧
      (foldBatches rs cm (pre ++ bi :: post) st).content_excluded = true := by
  intro pre
  induction pre with
  | nil =>
    intro st hpre hst
    have hm := processBatch_matches_of_hit rs cm st bi hp hinc
    have hx := processBatch_excluded_char rs cm st bi he
    rw [hst] at hx; simp only [Bool.false_or] at hx
    have hs := processBatch_snd_of_excl rs cm st bi he hst
    simp only [List.nil_append]
    unfold foldBatches
    cases hhit : excludeHit rs cm bi with
    | true =>
      rw [hhit] at hx
      simp [hs, hx, hm]
    | false =>
      rw [hhit] at hx
      have hpost : post.any (excludeHit rs cm) = true := by
        simpa [hhit] using hexc
      simp only [hs, hx, Bool.false_eq_true, if_false]
      refine ⟨foldBatches_matches_mono rs cm post _ hm, ?_⟩
      rw [foldBatches_excluded_char rs cm he post _ hx, hpost]
  | cons b pre ih =>
    intro st hpre hst
    have hb : excludeHit rs cm b = false := hpre b (by simp)
    have hx := processBatch_excluded_char rs cm st b he
    rw [hst, hb] at hx; simp only [Bool.false_or] at hx
    have hs := processBatch_snd_of_excl rs cm st b he hst
    simp only [List.cons_append]
    unfold foldBatches
    simp only [hs, hx, Bool.false_eq_true, if_false]
    exact ih _ (fun c hc => hpre c (by simp [hc])) hx

theorem finalCheck_eq_specFinalRule (cm : ContentMatcher) (st : BState) (w : Bool) :
    finalCheck cm st w =
      ((specFinalRule cm st.content_matches st.content_excluded).1,
       (specFinalRule cm st.content_matches st.content_excluded).2, w) := by
  unfold finalCheck specFinalRule
  split_ifs <;> rfl

theorem stopCond_init (cm : ContentMatcher) :
    stopCond cm ⟨false, false⟩ = false := by
  simp [stopCond]

theorem strContains_ne_empty (t pat : String) (hp : pat ≠ "")
    (h : strContains t pat = true) : t ≠ "" := by
  intro ht
  subst ht
  have h0 : ("" : String).toList = [] := rfl
  unfold strContains at h
  rw [h0] at h
  unfold containsAux at h
  rw [List.isEmpty_iff] at h
  apply hp
  cases pat with
  | mk data =>
    have hd : data = [] := by simpa [String.toList] using h
    simp [hd]

theorem processBatch_noop (rs : RegexFn) (cm : ContentMatcher) (b : String)
    (hep : cm.content_exclude_pattern = "")
    (hmiss : contentMatchTest rs cm.match_mode cm.content_pattern b = false) :
    processBatch rs cm ⟨false, false⟩ b = (⟨false, false⟩, false) := by
  simp only [processBatch]
  split_ifs <;> simp_all

/-! ### The claims -/

/-- C1. For every file read to completion without error, the result of
`ContentMatcher.check` obeys the spec's final decision rule (the cascade:
a configured include pattern that was never matched rejects with
`include_ok = false`; then a configured exclude pattern that matched rejects
with `excluded = true`; otherwise the file is accepted), applied to the
match flags the scan accumulated, with `had_read_error = false`. -/
theorem check_obeys_final_decision_rule (rs : RegexFn) (cm : ContentMatcher)
    (name : String) (lines : List String) :
    cm.check rs name (some lines) =
      ((specFinalRule cm (checkState rs cm name lines).content_matches
          (checkState rs cm name lines).content_excluded).1,
       (specFinalRule cm (checkState rs cm name lines).content_matches
          (checkState rs cm name lines).content_excluded).2,
       false) := by
  by_cases h1 : cm.enabled = false
  · have hpe : cm.content_pattern = "" ∧ cm.content_exclude_pattern = "" := by
      simpa [ContentMatcher.enabled] using h1
    simp [ContentMatcher.check, h1, specFinalRule, hpe.1, hpe.2]
  · by_cases h2 : cm.isBinaryName name = true
    · by_cases hp : cm.content_pattern = ""
      · simp [ContentMatcher.check, checkState, h1, h2, hp,
          finalCheck_eq_specFinalRule]
      · simp [ContentMatcher.check, checkState, h1, h2, hp, specFinalRule]
    · simp [ContentMatcher.check, checkState, h1, h2,
        finalCheck_eq_specFinalRule]

/-- C2. With both a content-include and a content-exclude pattern
configured, an early include match does not terminate reading: when the
include pattern fires on a batch no later than the first exclude-matching
batch, and the exclude pattern fires on some batch, the file is rejected as
excluded (`check` returns `(include_ok = false, excluded = true)`). -/
theorem check_exclude_overrides_early_include (rs : RegexFn)
    (cm : ContentMatcher) (name : String) (ls pre post : List String)
    (bi : String)
    (hp : cm.content_pattern ≠ "") (he : cm.content_exclude_pattern ≠ "")
    (hbin : cm.isBinaryName name = false)
    (hchunk : chunkBatches cm.batch_size [] ls = pre ++ bi :: post)
    (hpre : ∀ b ∈ pre, excludeHit rs cm b = false)
    (hinc : includeHit rs cm bi = true)
    (hexc : ∃ b ∈ bi :: post, excludeHit rs cm b = true) :
    cm.check rs name (some ls) = (false, true, false) := by
  have hen : cm.enabled = true := by simp [ContentMatcher.enabled, hp]
  have hany : (bi :: post).any (excludeHit rs cm) = true := by
    rw [List.any_eq_true]; exact hexc
  have hrun : runLines rs cm ls [] ⟨false, false⟩ =
      foldBatches rs cm (pre ++ bi :: post) ⟨false, false⟩ := by
    rw [runLines_eq_foldBatches rs cm ls [] ⟨false, false⟩ (stopCond_init cm),
      hchunk]
  obtain ⟨hm, hx⟩ :=
    foldBatches_c2 rs cm hp he bi post hinc hany pre ⟨false, false⟩ hpre rfl
  unfold ContentMatcher.check
  simp only [hen, hbin, Bool.true_eq_false, Bool.false_eq_true, and_false,
    if_false, false_and]
  rw [hrun]
  simp [finalCheck, hm, hx, he]

/-- C3. The tail flush: with `batch_size = 2` and a five-line file whose
include pattern (the only configured pattern) occurs in no full batch but
does occur in line 5, the final one-line partial batch is processed like a
full batch and `check` returns `include_ok = true`. -/
theorem check_flushes_partial_final_batch (rs : RegexFn) (name : String)
    (pat l1 l2 l3 l4 l5 : String)
    (hp : pat ≠ "")
    (hbin : (make_content_matcher pat "" .substring 2
      DEFAULT_BINARY_EXTS).isBinaryName name = false)
    (h12 : strContains (String.join [l1, l2]) pat = false)
    (h34 : strContains (String.join [l3, l4]) pat = false)
    (h5 : strContains (String.join [l5]) pat = true) :
    (make_content_matcher pat "" .substring 2 DEFAULT_BINARY_EXTS).check rs
      name (some [l1, l2, l3, l4, l5]) = (true, false, false) := by
  set cm := make_content_matcher pat "" .substring 2 DEFAULT_BINARY_EXTS with hcm
  have hen : cm.enabled = true := by simp [ContentMatcher.enabled, hcm, make_content_matcher, hp]
  have hbs : cm.batch_size = 2 := rfl
  have hmm : cm.match_mode = .substring := rfl
  have hpp : cm.content_pattern = pat := rfl
  have hepp : cm.content_exclude_pattern = "" := rfl
  have hchunk : chunkBatches cm.batch_size [] [l1, l2, l3, l4, l5] =
      [String.join [l1, l2], String.join [l3, l4], String.join [l5]] := by
    rw [hbs]
    simp [chunkBatches, chunkGroups]
  have e1 : processBatch rs cm ⟨false, false⟩ (String.join [l1, l2]) =
      (⟨false, false⟩, false) :=
    processBatch_noop rs cm _ hepp (by simp [contentMatchTest, hmm, hpp, h12])
  have e2 : processBatch rs cm ⟨false, false⟩ (String.join [l3, l4]) =
      (⟨false, false⟩, false) :=
    processBatch_noop rs cm _ hepp (by simp [contentMatchTest, hmm, hpp, h34])
  have hhit : includeHit rs cm (String.join [l5]) = true := by
    have hne : String.join [l5] ≠ "" := strContains_ne_empty _ pat hp h5
    simp [includeHit, contentMatchTest, hmm, hpp, h5, hne]
  have hm : (foldBatches rs cm [String.join [l1, l2], String.join [l3, l4],
      String.join [l5]] ⟨false, false⟩).content_matches = true := by
    have hm3 := processBatch_matches_of_hit rs cm ⟨false, false⟩
      (String.join [l5]) (by rw [hpp]; exact hp) hhit
    cases hr : (processBatch rs cm ⟨false, false⟩ (String.join [l5])).2 <;>
      simp [foldBatches, e1, e2, hr, hm3]
  unfold ContentMatcher.check
  simp only [hen, hbin, Bool.true_eq_false, Bool.false_eq_true, and_false,
    if_false, false_and]
  rw [runLines_eq_foldBatches rs cm _ [] ⟨false, false⟩ (stopCond_init cm),
    hchunk]
  simp [finalCheck, hm, hepp, hpp, hp]

/-- Witness for C2: include pattern on line 1, exclude pattern on line 10,
batch size 2 — the file is excluded overall. -/
theorem check_exclude_overrides_early_include_witness :
    (make_content_matcher "hello" "SECRET" .substring 2
      DEFAULT_BINARY_EXTS).check rsNone "a.txt"
      (some ["hello\n", "a\n", "b\n", "c\n", "d\n", "e\n", "f\n", "g\n",
             "h\n", "SECRET\n"]) = (false, true, false) :=
  check_exclude_overrides_early_include rsNone _ "a.txt" _ []
    ["b\nc\n", "d\ne\n", "f\ng\n", "h\nSECRET\n"] "hello\na\n"
    (by decide) (by decide) (by decide) (by decide)
    (by simp) (by decide) ⟨"h\nSECRET\n", by simp, by decide⟩

/-- Witness for C3: batch size 2, five lines, the pattern only in line 5 —
the file is matched thanks to the flushed one-line batch. -/
theorem check_flushes_partial_final_batch_witness :
    (make_content_matcher "zz" "" .substring 2 DEFAULT_BINARY_EXTS).check
      rsNone "a.txt" (some ["a\n", "b\n", "c\n", "d\n", "zz\n"]) =
      (true, false, false) :=
  check_flushes_partial_final_batch rsNone "a.txt" "zz" "a\n" "b\n" "c\n"
    "d\n" "zz\n" (by decide) (by decide) (by decide) (by decide) (by decide)

/-- C4. A file whose lowered extension is in the binary-extensions set is
decided without consulting the file content at all: with a content-include
pattern configured the result is `(false, false, false)`, and with only a
content-exclude pattern configured it is `(true, false, false)` — for every
possible read outcome, since the file is never opened. -/
theorem check_binary_short_circuit (rs : RegexFn) (cm : ContentMatcher)
    (name : String) (hbin : cm.isBinaryName name = true) :
    (cm.content_pattern ≠ "" →
      ∀ r : Option (List String), cm.check rs name r = (false, false, false))
    ∧ (cm.content_pattern = "" → cm.content_exclude_pattern ≠ "" →
      ∀ r : Option (List String), cm.check rs name r = (true, false, false)) := by
  constructor
  · intro hp r
    have hen : cm.enabled = true := by simp [ContentMatcher.enabled, hp]
    simp [ContentMatcher.check, hen, hbin, hp]
  · intro hp he r
    have hen : cm.enabled = true := by simp [ContentMatcher.enabled, he]
    simp [ContentMatcher.check, hen, hbin, hp, finalCheck]

/-- Witness for C4: a `.PNG` file (case-insensitive extension test) whose
content even contains the pattern is rejected without reading in the
include configuration, and passes without reading in the exclude-only
configuration. -/
theorem check_binary_short_circuit_witness :
    ((make_content_matcher "x" "" .substring 100
        DEFAULT_BINARY_EXTS).isBinaryName "a.PNG" = true
      ∧ (make_content_matcher "x" "" .substring 100
        DEFAULT_BINARY_EXTS).check rsNone "a.PNG" (some ["x\n"]) =
        (false, false, false))
    ∧ ((make_content_matcher "" "x" .substring 100
        DEFAULT_BINARY_EXTS).isBinaryName "a.PNG" = true
      ∧ (make_content_matcher "" "x" .substring 100
        DEFAULT_BINARY_EXTS).check rsNone "a.PNG" (some ["x\n"]) =
        (true, false, false)) :=
  ⟨⟨by decide, (check_binary_short_circuit rsNone _ "a.PNG"
      (by decide)).1 (by decide) _⟩,
   ⟨by decide, (check_binary_short_circuit rsNone _ "a.PNG"
      (by decide)).2 rfl (by decide) _⟩⟩

/-- C5. A read error during content scanning yields
`(include_ok = false, excluded = false, had_read_error = true)` — the file
is dropped from the results — and the scan loop simply moves on: the
remaining candidates produce exactly what they would have produced anyway,
with the failed candidate still counted as scanned. -/
theorem check_read_error_nonfatal (rs : RegexFn) (cfg : AppConfig)
    (p : String) (rest : List (String × Option (List String)))
    (hen : cfg.content_pattern ≠ "" ∨ cfg.content_exclude_pattern ≠ "")
    (hbin : (cfgMatcher cfg).isBinaryName (basenameStr p) = false)
    (hout : p ≠ cfg.output_file)
    (hinc : cfg.pattern = "" ∨ includePath rs cfg.pattern cfg.match_mode
      (relpathStr p cfg.input_dir) (basenameStr p) = true)
    (hexc : cfg.exclude_pattern = "" ∨ excludePath rs cfg.exclude_pattern
      cfg.match_mode (relpathStr p cfg.input_dir) (basenameStr p) = false) :
    (cfgMatcher cfg).check rs (basenameStr p) none = (false, false, true)
    ∧ scanLoop rs cfg (cfgMatcher cfg) ((p, none) :: rest) =
        ((scanLoop rs cfg (cfgMatcher cfg) rest).1,
         (scanLoop rs cfg (cfgMatcher cfg) rest).2 + 1) := by
  have hen' : (cfgMatcher cfg).enabled = true := by
    rcases hen with h | h <;>
      simp [ContentMatcher.enabled, cfgMatcher, make_content_matcher, h]
  have hchk : (cfgMatcher cfg).check rs (basenameStr p) none =
      (false, false, true) := by
    simp [ContentMatcher.check, hen', hbin]
  refine ⟨hchk, ?_⟩
  have hc1 : ¬(cfg.pattern ≠ "" ∧ includePath rs cfg.pattern cfg.match_mode
      (relpathStr p cfg.input_dir) (basenameStr p) = false) := by
    rcases hinc with h | h <;> simp [h]
  have hc2 : ¬(cfg.exclude_pattern ≠ "" ∧ excludePath rs cfg.exclude_pattern
      cfg.match_mode (relpathStr p cfg.input_dir) (basenameStr p) = true) := by
    rcases hexc with h | h <;> simp [h]
  simp [scanLoop, hout, hc1, hc2, hchk]

/-- Witness for C5: an unreadable candidate passing the path filters is
reported `(false, false, true)` and the scan produces exactly the results
of the remaining candidates. -/
theorem check_read_error_nonfatal_witness :
    (cfgMatcher ⟨"/root", "/root/out.txt", false, false, "", .substring, "",
      true, "x", "", 100⟩).check rsNone (basenameStr "/root/a.txt") none =
      (false, false, true)
    ∧ scanLoop rsNone ⟨"/root", "/root/out.txt", false, false, "",
        .substring, "", true, "x", "", 100⟩
        (cfgMatcher ⟨"/root", "/root/out.txt", false, false, "", .substring,
          "", true, "x", "", 100⟩)
        (("/root/a.txt", none) :: [("/root/b.txt", some ["x\n"])]) =
        ((scanLoop rsNone ⟨"/root", "/root/out.txt", false, false, "",
            .substring, "", true, "x", "", 100⟩
            (cfgMatcher ⟨"/root", "/root/out.txt", false, false, "",
              .substring, "", true, "x", "", 100⟩)
            [("/root/b.txt", some ["x\n"])]).1,
         (scanLoop rsNone ⟨"/root", "/root/out.txt", false, false, "",
            .substring, "", true, "x", "", 100⟩
            (cfgMatcher ⟨"/root", "/root/out.txt", false, false, "",
              .substring, "", true, "x", "", 100⟩)
            [("/root/b.txt", some ["x\n"])]).2 + 1) :=
  check_read_error_nonfatal rsNone _ "/root/a.txt"
    [("/root/b.txt", some ["x\n"])] (Or.inl (by decide)) (by decide)
    (by decide) (Or.inl rfl) (Or.inl rfl)

/-- C6. In regex match mode the path filters test only the relative path:
the include filter equals a search of the pattern in the relative path, is
wholly independent of the base name, and a file whose base name alone
matches is rejected; the exclude filter has the same asymmetry. -/
theorem regex_mode_ignores_basename (rs : RegexFn)
    (pattern exclude_pattern rel name name2 : String)
    (hp : pattern ≠ "") (he : exclude_pattern ≠ "") :
    (make_path_matchers rs pattern exclude_pattern .regex).1 rel name =
      rs pattern rel
    ∧ (make_path_matchers rs pattern exclude_pattern .regex).1 rel name =
      (make_path_matchers rs pattern exclude_pattern .regex).1 rel name2
    ∧ (rs pattern name = true → rs pattern rel = false →
      (make_path_matchers rs pattern exclude_pattern .regex).1 rel name = false)
    ∧ (make_path_matchers rs pattern exclude_pattern .regex).2 rel name =
      rs exclude_pattern rel
    ∧ (make_path_matchers rs pattern exclude_pattern .regex).2 rel name =
      (make_path_matchers rs pattern exclude_pattern .regex).2 rel name2 := by
  have hi : ∀ nm : String,
      (make_path_matchers rs pattern exclude_pattern .regex).1 rel nm =
        rs pattern rel := by
    intro nm
    simp [make_path_matchers, includePath, hp]
  have hx : ∀ nm : String,
      (make_path_matchers rs pattern exclude_pattern .regex).2 rel nm =
        rs exclude_pattern rel := by
    intro nm
    simp [make_path_matchers, excludePath, he]
  refine ⟨hi name, (hi name).trans (hi name2).symm, ?_, hx name,
    (hx name).trans (hx name2).symm⟩
  intro _ hrel
  rw [hi name, hrel]

/-- Witness for C6: with a substring-language regex, pattern "c.txt" against
relative path "src/main.c": the base name "c.txt" matches the pattern, the
relative path does not, and the include filter rejects. -/
theorem regex_mode_ignores_basename_witness :
    (make_path_matchers rsSub "c.txt" "c.txt" .regex).1 "src/main.c" "c.txt" =
      rsSub "c.txt" "src/main.c"
    ∧ (make_path_matchers rsSub "c.txt" "c.txt" .regex).1 "src/main.c" "c.txt" =
      (make_path_matchers rsSub "c.txt" "c.txt" .regex).1 "src/main.c" "other"
    ∧ (rsSub "c.txt" "c.txt" = true → rsSub "c.txt" "src/main.c" = false →
      (make_path_matchers rsSub "c.txt" "c.txt" .regex).1 "src/main.c" "c.txt" =
        false)
    ∧ (make_path_matchers rsSub "c.txt" "c.txt" .regex).2 "src/main.c" "c.txt" =
      rsSub "c.txt" "src/main.c"
    ∧ (make_path_matchers rsSub "c.txt" "c.txt" .regex).2 "src/main.c" "c.txt" =
      (make_path_matchers rsSub "c.txt" "c.txt" .regex).2 "src/main.c" "other" :=
  regex_mode_ignores_basename rsSub "c.txt" "c.txt" "src/main.c" "c.txt"
    "other" (by decide) (by decide)

/-- C9. In substring mode an empty pattern is treated as no filter at all:
the include filter accepts every (relative path, base name) pair. -/
theorem substring_empty_pattern_matches_all (rs : RegexFn)
    (exclude_pattern rel name : String) :
    includePath rs "" .substring rel name = true
    ∧ (make_path_matchers rs "" exclude_pattern .substring).1 rel name = true := by
  constructor <;> simp [make_path_matchers, includePath]

theorem length_filter_not_add_countP {α : Type} (f : α → Bool) (l : List α) :
    (l.filter (fun a => !(f a))).length + l.countP f = l.length := by
  induction l with
  | nil => simp
  | cons a l ih =>
    cases h : f a <;> simp [List.filter_cons, List.countP_cons, h] <;> omega

theorem scanLoop_no_filters (rs : RegexFn) (cfg : AppConfig)
    (h1 : cfg.pattern = "") (h2 : cfg.exclude_pattern = "")
    (h3 : cfg.content_pattern = "") (h4 : cfg.content_exclude_pattern = "") :
    ∀ l : List (String × Option (List String)),
      scanLoop rs cfg (cfgMatcher cfg) l =
        ((l.filter (fun c => !(c.1 == cfg.output_file))).map
          (fun c => (c.1, relpathStr c.1 cfg.input_dir)), l.length) := by
  have hen : (cfgMatcher cfg).enabled = false := by
    simp [ContentMatcher.enabled, cfgMatcher, make_content_matcher, h3, h4]
  intro l
  induction l with
  | nil => simp [scanLoop]
  | cons c rest ih =>
    obtain ⟨p, data⟩ := c
    by_cases hout : p = cfg.output_file
    · simp [scanLoop, hout, ih, List.filter_cons]
    · have hchk : (cfgMatcher cfg).check rs (basenameStr p) data =
          (true, false, false) := by
        simp [ContentMatcher.check, hen]
      simp [scanLoop, hout, h1, h2, hchk, ih, List.filter_cons]

/-- C7. With all four pattern fields empty, the scan matches exactly the
candidates the traversal yields minus those equal to the output file, in
traversal order; `scanned` counts every candidate and
`matched = scanned - #(candidates that are the output file)`. -/
theorem scan_no_patterns_matches_all (rs : RegexFn) (cfg : AppConfig)
    (tree : List FSTree)
    (h1 : cfg.pattern = "") (h2 : cfg.exclude_pattern = "")
    (h3 : cfg.content_pattern = "") (h4 : cfg.content_exclude_pattern = "") :
    (scan_files rs cfg tree).1 =
      ((iter_files cfg.input_dir cfg.recursive tree).filter
        (fun c => !(c.1 == cfg.output_file))).map
        (fun c => (c.1, relpathStr c.1 cfg.input_dir))
    ∧ (scan_files rs cfg tree).2.scanned =
      (iter_files cfg.input_dir cfg.recursive tree).length
    ∧ (scan_files rs cfg tree).2.matched =
      (scan_files rs cfg tree).2.scanned -
        (iter_files cfg.input_dir cfg.recursive tree).countP
          (fun c => c.1 == cfg.output_file) := by
  have hl := scanLoop_no_filters rs cfg h1 h2 h3 h4
    (iter_files cfg.input_dir cfg.recursive tree)
  have harith := length_filter_not_add_countP
    (fun c : String × Option (List String) => c.1 == cfg.output_file)
    (iter_files cfg.input_dir cfg.recursive tree)
  refine ⟨?_, ?_, ?_⟩
  · simp [scan_files, hl]
  · simp [scan_files, hl]
  · simp [scan_files, hl]
    omega

/-- Witness for C7: a no-pattern configuration over a small tree containing
the output file. -/
theorem scan_no_patterns_matches_all_witness :
    (scan_files rsNone ⟨"/root", "/root/out.txt", false, false, "",
        .substring, "", true, "", "", 100⟩
      [FSTree.file "a.txt" (some ["x"]), FSTree.file "out.txt" (some ["y"]),
       FSTree.dir "sub" [FSTree.file "c.txt" none]]).1 =
      ((iter_files "/root" true
        [FSTree.file "a.txt" (some ["x"]), FSTree.file "out.txt" (some ["y"]),
         FSTree.dir "sub" [FSTree.file "c.txt" none]]).filter
          (fun c => !(c.1 == "/root/out.txt"))).map
        (fun c => (c.1, relpathStr c.1 "/root"))
    ∧ (scan_files rsNone ⟨"/root", "/root/out.txt", false, false, "",
        .substring, "", true, "", "", 100⟩
      [FSTree.file "a.txt" (some ["x"]), FSTree.file "out.txt" (some ["y"]),
       FSTree.dir "sub" [FSTree.file "c.txt" none]]).2.scanned =
      (iter_files "/root" true
        [FSTree.file "a.txt" (some ["x"]), FSTree.file "out.txt" (some ["y"]),
         FSTree.dir "sub" [FSTree.file "c.txt" none]]).length
    ∧ (scan_files rsNone ⟨"/root", "/root/out.txt", false, false, "",
        .substring, "", true, "", "", 100⟩
      [FSTree.file "a.txt" (some ["x"]), FSTree.file "out.txt" (some ["y"]),
       FSTree.dir "sub" [FSTree.file "c.txt" none]]).2.matched =
      (scan_files rsNone ⟨"/root", "/root/out.txt", false, false, "",
        .substring, "", true, "", "", 100⟩
        [FSTree.file "a.txt" (some ["x"]), FSTree.file "out.txt" (some ["y"]),
         FSTree.dir "sub" [FSTree.file "c.txt" none]]).2.scanned -
        (iter_files "/root" true
          [FSTree.file "a.txt" (some ["x"]), FSTree.file "out.txt" (some ["y"]),
           FSTree.dir "sub" [FSTree.file "c.txt" none]]).countP
          (fun c => c.1 == "/root/out.txt") :=
  scan_no_patterns_matches_all rsNone _ _ rfl rfl rfl rfl

/-- C8. A directory whose base name is in the default-excluded set is
pruned before descent, at whatever directory level it occurs: it and all
its descendants contribute nothing to the traversal output, so the scan
(its candidate list, statistics, and matched files) is identical with or
without that whole subtree. -/
theorem pruned_dirs_invisible (n : String)
    (hn : n ∈ DEFAULT_EXCLUDED_DIR_NAMES) (p : String)
    (pre post cs : List FSTree) :
    walkChildren p (pre ++ FSTree.dir n cs :: post) =
      walkChildren p (pre ++ post)
    ∧ ∀ (rs : RegexFn) (cfg : AppConfig),
      scan_files rs cfg (pre ++ FSTree.dir n cs :: post) =
        scan_files rs cfg (pre ++ post) := by
  have hwalk : ∀ (q : String) (xs : List FSTree),
      walkChildren q (xs ++ FSTree.dir n cs :: post) =
        walkChildren q (xs ++ post) := by
    intro q xs
    induction xs with
    | nil => simp [walkChildren, hn]
    | cons t xs ih =>
      cases t with
      | file nm d => simp [walkChildren, ih]
      | dir m ds => simp [walkChildren, ih]
  have hfiles : ∀ q : String,
      filesAt q (pre ++ FSTree.dir n cs :: post) = filesAt q (pre ++ post) := by
    intro q
    simp [filesAt, List.filterMap_append]
  refine ⟨hwalk p pre, ?_⟩
  intro rs cfg
  have hiter : iter_files cfg.input_dir cfg.recursive
      (pre ++ FSTree.dir n cs :: post) =
      iter_files cfg.input_dir cfg.recursive (pre ++ post) := by
    unfold iter_files
    by_cases hr : cfg.recursive <;>
      simp [hr, hfiles, hwalk]
  simp [scan_files, hiter]

/-- Witness for C8: a pruned `node_modules` directory between two siblings
changes neither the walk output nor the scan result. -/
theorem pruned_dirs_invisible_witness :
    walkChildren "/root" ([FSTree.file "a.txt" (some ["x"])] ++
        FSTree.dir "node_modules" [FSTree.file "m.js" (some ["x"])] ::
        [FSTree.dir "sub" [FSTree.file "c.txt" none]]) =
      walkChildren "/root" ([FSTree.file "a.txt" (some ["x"])] ++
        [FSTree.dir "sub" [FSTree.file "c.txt" none]])
    ∧ scan_files rsNone ⟨"/root", "/root/out.txt", false, false, "",
        .substring, "", true, "", "", 100⟩
        ([FSTree.file "a.txt" (some ["x"])] ++
          FSTree.dir "node_modules" [FSTree.file "m.js" (some ["x"])] ::
          [FSTree.dir "sub" [FSTree.file "c.txt" none]]) =
      scan_files rsNone ⟨"/root", "/root/out.txt", false, false, "",
        .substring, "", true, "", "", 100⟩
        ([FSTree.file "a.txt" (some ["x"])] ++
          [FSTree.dir "sub" [FSTree.file "c.txt" none]]) :=
  ⟨(pruned_dirs_invisible "node_modules" (by decide) "/root" _ _ _).1,
   (pruned_dirs_invisible "node_modules" (by decide) "/root" _ _ _).2
     rsNone _⟩

theorem chunkGroups_ne_nil (bs : Nat) :
    ∀ (ls acc : List String), ∀ g ∈ chunkGroups bs acc ls, g ≠ [] := by
  intro ls
  induction ls with
  | nil =>
    intro acc g hg
    by_cases hacc : acc = []
    · simp [chunkGroups, hacc] at hg
    · simp [chunkGroups, hacc] at hg
      subst hg
      exact hacc
  | cons l rest ih =>
    intro acc g hg
    by_cases hlen : bs ≤ acc.length + 1
    · simp only [chunkGroups, List.length_append, List.length_cons,
        List.length_nil, Nat.zero_add, hlen, if_true] at hg
      rcases List.mem_cons.mp hg with hg | hg
      · subst hg; simp
      · exact ih [] g hg
    · simp only [chunkGroups, List.length_append, List.length_cons,
        List.length_nil, Nat.zero_add, hlen, if_false] at hg
      exact ih (acc ++ [l]) g hg

theorem chunkGroups_length_le (bs : Nat) :
    ∀ (ls acc : List String),
      (chunkGroups bs acc ls).length ≤
        ls.length + (if acc = [] then 0 else 1) := by
  intro ls
  induction ls with
  | nil =>
    intro acc
    by_cases hacc : acc = [] <;> simp [chunkGroups, hacc]
  | cons l rest ih =>
    intro acc
    by_cases hlen : bs ≤ acc.length + 1
    · have h0 := ih []
      simp only [chunkGroups, List.length_append, List.length_cons,
        List.length_nil, Nat.zero_add, hlen, if_true]
      simp at h0
      split <;> omega
    · have h0 := ih (acc ++ [l])
      have hne : ¬(acc ++ [l] = []) := by simp
      simp only [chunkGroups, List.length_append, List.length_cons,
        List.length_nil, Nat.zero_add, hlen, if_false]
      simp [hne] at h0
      split <;> omega

/-- C10. `ContentMatcher` is well-defined for every integer `batch_size`,
zero and negatives included: the constructor clamps the effective size to
`max 1 batch_size`, so it is at least one line; and for any file the
reading loop's division into batches produces only non-empty line groups,
never more groups than there are lines (so the loop always makes
progress and terminates). -/
theorem batch_size_clamped (cp cep : String) (mm : MatchMode)
    (exts : List String) (b : Int) (ls : List String) :
    1 ≤ (make_content_matcher cp cep mm b exts).batch_size
    ∧ ((make_content_matcher cp cep mm b exts).batch_size : Int) = max 1 b
    ∧ (∀ g ∈ chunkGroups (make_content_matcher cp cep mm b exts).batch_size
        [] ls, g ≠ [])
    ∧ (chunkGroups (make_content_matcher cp cep mm b exts).batch_size
        [] ls).length ≤ ls.length := by
  have hnn : (0 : Int) ≤ max 1 b := le_trans zero_le_one (le_max_left 1 b)
  refine ⟨?_, ?_, chunkGroups_ne_nil _ ls [], ?_⟩
  · simp only [make_content_matcher]
    omega
  · simp only [make_content_matcher]
    exact Int.toNat_of_nonneg hnn
  · have := chunkGroups_length_le
      (make_content_matcher cp cep mm b exts).batch_size ls []
    simpa using this

end Fileconcat
